import Mathlib

/-!
Verification of the Client controller of the Kakoune editor
(src/client.cc), shallowly embedded in Lean 4.

The Client controller is single-threaded; all external collaborator calls
(rendering backend, hook engine, input handler, process signals, the
reload operation on the buffer engine) are recorded in an ordered
per-client trace of `Effect`s.  Machine state that the claims inspect
(the pending-key queue, the status/mode display lines, the reload-dialog
flag, the Menu and Info overlay records) is carried explicitly in the
`Client` structure.  External inputs (filesystem timestamps, window
dirtiness and position, option values, the parsed modelinefmt) are passed
as arguments, mirroring the calls the source makes to obtain them.
-/

namespace KakClient

/-- Key modifier bits that the dispatched code inspects: the source tests
full-key equality against ctrl-keys and plain keys, and tests
the modifier field alone against Resize. -/
inductive KeyMod where
  | plain
  | control
  | resize
deriving DecidableEq, Repr

/-- An input event: a modifier and a codepoint, as in the source Key
structure.  Focus-gained/lost are special codepoints, as in the source. -/
structure Key where
  mods : KeyMod
  code : Nat
deriving DecidableEq, Repr

/-- ctrl('c'), the interrupt key. -/
def ctrlC : Key := ⟨KeyMod.control, 99⟩

/-- ctrl('m'), the enter/return key used as a confirm key. -/
def ctrlM : Key := ⟨KeyMod.control, 109⟩

/-- Key::Escape. -/
def escapeKey : Key := ⟨KeyMod.plain, 27⟩

/-- The plain character key 'y'. -/
def keyY : Key := ⟨KeyMod.plain, 121⟩

/-- The plain character key 'n'. -/
def keyN : Key := ⟨KeyMod.plain, 110⟩

/-- Key::FocusIn (a special codepoint in the source). -/
def focusIn : Key := ⟨KeyMod.plain, 983041⟩

/-- Key::FocusOut (a special codepoint in the source). -/
def focusOut : Key := ⟨KeyMod.plain, 983042⟩

/-- Modelled from the spec: textual rendering of a key for status
messages.  The source helper key_to_str lives outside this repository
slice; the spec only requires that the offending key is rendered inside
the "is not a valid choice" message. -/
def keyToStr (k : Key) : String :=
  match k.mods with
  | KeyMod.plain => String.singleton (Char.ofNat k.code)
  | KeyMod.control => "<c-" ++ String.singleton (Char.ofNat k.code) ++ ">"
  | KeyMod.resize => "<resize>"

/-- Event modes of the dispatch loop, as in the source EventMode. -/
inductive EventMode where
  | Normal
  | Pending
  | Urgent
deriving DecidableEq, Repr

/-- Autoreload option values (source enum Autoreload: Yes / Ask / No). -/
inductive Autoreload where
  | Yes
  | Ask
  | No
deriving DecidableEq, Repr

/-- Menu display styles, as in the source MenuStyle. -/
inductive MenuStyle where
  | Prompt
  | Inline
deriving DecidableEq, Repr

/-- Info display styles, as in the source InfoStyle. -/
inductive InfoStyle where
  | Prompt
  | Inline
  | InlineAbove
  | InlineBelow
deriving DecidableEq, Repr

/-- is_inline from src/client.cc lines 165-170. -/
def isInlineStyle (style : InfoStyle) : Bool :=
  style = InfoStyle.Inline ||
  style = InfoStyle.InlineAbove ||
  style = InfoStyle.InlineBelow

/-- Screen/buffer coordinates (line, column). -/
abbrev Coord := Int × Int

/-- A styled text atom of a display line; the face is identified by the
face-registry name the source requests via get_face. -/
structure DisplayAtom where
  content : String
  face : String := ""
deriving DecidableEq, Repr

/-- A display line is its ordered sequence of atoms (the source compares
display lines by their atoms() vectors). -/
abbrev DisplayLine := List DisplayAtom

/-- Menu overlay record owned by a Client (source struct Menu). -/
structure Menu where
  items : List DisplayLine := []
  anchor : Coord := (0, 0)
  style : MenuStyle := MenuStyle.Prompt
  selected : Int := -1
deriving DecidableEq, Repr

/-- Info overlay record owned by a Client (source struct Info). -/
structure Info where
  title : String := ""
  content : String := ""
  anchor : Coord := (0, 0)
  style : InfoStyle := InfoStyle.Prompt
deriving DecidableEq, Repr

/-- The shared Buffer state the Client controller reads and writes:
identity is by name; flags and the recorded filesystem timestamp are the
fields client.cc consults.  InvalidTime is modelled as Option.none. -/
structure Buffer where
  name : String
  displayName : String
  isFile : Bool := true
  isNew : Bool := false
  isFifo : Bool := false
  isModified : Bool := false
  fsTimestamp : Option Nat := none
deriving DecidableEq, Repr

/-- One externally visible call made by a Client, recorded in order. -/
inductive Effect where
  | draw
  | drawStatus (status : DisplayLine) (mode : DisplayLine) (face : String)
  | refresh
  | menuShow (items : List DisplayLine) (anchor : Coord) (style : MenuStyle)
  | menuSelect (selected : Int)
  | menuHide
  | infoShow (title : String) (content : String) (anchor : Coord) (style : InfoStyle)
  | infoHide
  | setUiOptions
  | setDimensions
  | killpg
  | runHook (hook : String) (param : String)
  | handleKey (k : Key)
  | forceRedraw
  | reloadFileBuffer
  | onNextKey
  | resetNormalMode
  | writeDebug (msg : String)
deriving DecidableEq, Repr

/-- The Client controller state: the fields of class Client that the
verified functions read or write, plus the ordered trace of external
calls the client has issued. -/
structure Client where
  name : String := ""
  pendingKeys : List Key := []
  statusLine : DisplayLine := []
  pendingStatusLine : DisplayLine := []
  modeLine : DisplayLine := []
  dialogOpened : Bool := false
  menu : Menu := {}
  info : Info := {}
  bufferId : Nat := 0
  lastBuffer : Option Nat := none
  trace : List Effect := []
deriving DecidableEq, Repr

/-- Record one external call at the end of the client trace. -/
def emit (c : Client) (e : Effect) : Client :=
  { c with trace := c.trace ++ [e] }

/-- Client::print_status (src/client.cc lines 101-104): store the line as
the pending status line; it is drawn on the next redraw_ifn. -/
def printStatus (c : Client) (line : DisplayLine) : Client :=
  { c with pendingStatusLine := line }

/-- Client::get_next_key (src/client.cc lines 46-57).  The input source
is modelled as the list of keys it has available, front first; fetching a
key consumes the front.  Returns the key if any, the updated client and
the remaining input-source keys. -/
def getNextKey (mode : EventMode) (c : Client) (ui : List Key) :
    Option Key × Client × List Key :=
  match c.pendingKeys with
  | k :: rest => (some k, { c with pendingKeys := rest }, ui)
  | [] =>
    if mode ≠ EventMode.Pending then
      match ui with
      | k :: rest => (some k, c, rest)
      | [] => (none, c, ui)
    else (none, c, ui)

/-- The body of the per-key dispatch in Client::handle_available_input
(src/client.cc lines 77-86): interrupt broadcast, focus hooks, resize, or
forwarding to the editing engine, each a single external call. -/
def dispatchKey (c : Client) (k : Key) : Client :=
  if k = ctrlC then emit c Effect.killpg
  else if k = focusIn then emit c (Effect.runHook "FocusIn" c.name)
  else if k = focusOut then emit c (Effect.runHook "FocusOut" c.name)
  else if k.mods = KeyMod.resize then emit c Effect.forceRedraw
  else emit c (Effect.handleKey k)

/-- The single external call dispatchKey makes for a key. -/
def keyEffect (name : String) (k : Key) : Effect :=
  if k = ctrlC then Effect.killpg
  else if k = focusIn then Effect.runHook "FocusIn" name
  else if k = focusOut then Effect.runHook "FocusOut" name
  else if k.mods = KeyMod.resize then Effect.forceRedraw
  else Effect.handleKey k

theorem dispatchKey_eq_emit (c : Client) (k : Key) :
    dispatchKey c k = emit c (keyEffect c.name k) := by
  unfold dispatchKey keyEffect
  split_ifs <;> rfl

@[simp] theorem dispatchKey_pendingKeys (c : Client) (k : Key) :
    (dispatchKey c k).pendingKeys = c.pendingKeys := by
  rw [dispatchKey_eq_emit]; rfl

@[simp] theorem dispatchKey_trace (c : Client) (k : Key) :
    (dispatchKey c k).trace = c.trace ++ [keyEffect c.name k] := by
  rw [dispatchKey_eq_emit]; rfl

@[simp] theorem dispatchKey_name (c : Client) (k : Key) :
    (dispatchKey c k).name = c.name := by
  rw [dispatchKey_eq_emit]; rfl

theorem getNextKey_some_measure (mode : EventMode) (c : Client) (ui : List Key)
    (k : Key) (c2 : Client) (ui2 : List Key)
    (h : getNextKey mode c ui = (some k, c2, ui2)) :
    c2.pendingKeys.length + ui2.length < c.pendingKeys.length + ui.length := by
  obtain ⟨nm, pk, sl, psl, ml, dg, mn, inf, bid, lb, tr⟩ := c
  cases pk with
  | cons k0 rest =>
    simp only [getNextKey, Prod.mk.injEq, Option.some.injEq] at h
    obtain ⟨h1, h2, h3⟩ := h
    subst h2; subst h3
    simp
  | nil =>
    by_cases hmode : mode = EventMode.Pending
    · simp [getNextKey, hmode] at h
    · cases ui with
      | nil => simp [getNextKey, hmode] at h
      | cons k1 urest =>
        simp only [getNextKey, hmode, ne_eq, not_false_iff, if_true,
          Prod.mk.injEq, Option.some.injEq] at h
        obtain ⟨h1, h2, h3⟩ := h
        subst h2; subst h3
        simp

/-- The drain loop of Client::handle_available_input in Normal/Pending
mode (src/client.cc lines 75-87): repeatedly fetch the next key and
dispatch it until no key remains.  The editing-engine and hook calls are
recorded as effects; they are modelled as returning normally (the
catch-blocks for runtime_error and client_removed only act when a
collaborator throws). -/
def drainKeys (mode : EventMode) (c : Client) (ui : List Key) :
    Client × List Key :=
  match h : getNextKey mode c ui with
  | (some k, c2, ui2) => drainKeys mode (dispatchKey c2 k) ui2
  | (none, c2, ui2) => (c2, ui2)
termination_by c.pendingKeys.length + ui.length
decreasing_by
  have hm := getNextKey_some_measure mode c ui k c2 ui2 h
  simpa only [dispatchKey_pendingKeys] using hm

/-- Client::handle_available_input (src/client.cc lines 59-99).  In
Urgent mode the source calls m_ui->get_key() directly (it is invoked on
input availability, so the source is nonempty); otherwise it drains keys.
Returns the updated client and the remaining input-source keys. -/
def handleAvailableInput (mode : EventMode) (c : Client) (ui : List Key) :
    Client × List Key :=
  if mode = EventMode.Urgent then
    match ui with
    | [] => (c, ui)
    | k :: rest =>
      if k = ctrlC then (emit c Effect.killpg, rest)
      else ({ c with pendingKeys := c.pendingKeys ++ [k] }, rest)
  else
    drainKeys mode c ui

/-- Client::menu_show (src/client.cc lines 306-311): replace the Menu
record wholesale and issue the backend show call; the display anchor is
the window mapping of the logical anchor only for the Inline style.
dp is the window display_position mapping. -/
def menuShow (c : Client) (dp : Coord → Coord) (choices : List DisplayLine)
    (anchor : Coord) (style : MenuStyle) : Client :=
  let c := { c with menu := Menu.mk choices anchor style (-1) }
  let uiAnchor := if style = MenuStyle.Inline then dp anchor else ((0 : Int), (0 : Int))
  emit c (Effect.menuShow c.menu.items uiAnchor style)

/-- Client::menu_select (src/client.cc lines 313-317). -/
def menuSelect (c : Client) (selected : Int) : Client :=
  emit { c with menu := { c.menu with selected := selected } }
    (Effect.menuSelect selected)

/-- Client::menu_hide (src/client.cc lines 319-323). -/
def menuHide (c : Client) : Client :=
  emit { c with menu := {} } Effect.menuHide

/-- Client::info_show (src/client.cc lines 325-330): replace the Info
record wholesale and issue the backend show call; the display anchor is
the window mapping of the logical anchor only for inline styles. -/
def infoShow (c : Client) (dp : Coord → Coord) (title content : String)
    (anchor : Coord) (style : InfoStyle) : Client :=
  let c := { c with info := Info.mk title content anchor style }
  let uiAnchor := if isInlineStyle style then dp anchor else ((0 : Int), (0 : Int))
  emit c (Effect.infoShow c.info.title c.info.content uiAnchor style)

/-- Client::info_hide (src/client.cc lines 332-336). -/
def infoHide (c : Client) : Client :=
  emit { c with info := {} } Effect.infoHide

/-- Client::reload_buffer (src/client.cc lines 218-224): invoke the
buffer engine's reload operation (external, recorded as an effect) and
print an informational "reloaded" status.  The buffer record is returned
as the engine leaves it; its text is outside this model. -/
def reloadBuffer (c : Client) (buf : Buffer) : Client × Buffer :=
  let c := emit c Effect.reloadFileBuffer
  let c := printStatus c
    [DisplayAtom.mk ("'" ++ buf.displayName ++ "' reloaded") "Information"]
  (c, buf)

/-- Client::close_buffer_reload_dialog (src/client.cc lines 255-261):
clear the dialog flag, hide the backend info overlay (directly on the
backend: the stored Info record is not cleared), and reset the input
handler to normal mode. -/
def closeBufferReloadDialog (c : Client) : Client :=
  let c := { c with dialogOpened := false }
  let c := emit c Effect.infoHide
  emit c Effect.resetNormalMode

/-- Client::check_if_buffer_needs_reloading (src/client.cc lines
263-290).  fs maps a file name to its filesystem timestamp (none is
InvalidTime); dp is the window display_position mapping the embedded
info_show would consult; reload is the autoreload option value. -/
def checkIfBufferNeedsReloading (c : Client) (buf : Buffer)
    (reload : Autoreload) (fs : String → Option Nat) (dp : Coord → Coord) :
    Client × Buffer :=
  if c.dialogOpened then (c, buf)
  else if ¬ buf.isFile ∨ reload = Autoreload.No then (c, buf)
  else
    let ts := fs buf.name
    if ts = none ∨ ts = buf.fsTimestamp then (c, buf)
    else if reload = Autoreload.Ask then
      let c := infoShow c dp ("reload '" ++ buf.displayName ++ "' ?")
        ("'" ++ buf.displayName ++ "' was modified externally\n" ++
         "press <ret> or y to reload, <esc> or n to keep")
        ((0 : Int), (0 : Int)) InfoStyle.Prompt
      let c := { c with dialogOpened := true }
      let c := emit c Effect.onNextKey
      (c, buf)
    else
      reloadBuffer c buf

/-- The multi-client world: the registry of live clients (ClientManager),
the buffers they may share (identified by index), and the filesystem. -/
structure System where
  clients : List Client
  buffers : List Buffer
  fs : String → Option Nat

/-- Client::on_buffer_reload_key (src/client.cc lines 226-253), run on
client i with the next key k.  Confirm reloads, decline re-records the
filesystem timestamp and keeps, an invalid key re-prompts and returns
early; on confirm or decline every registered client viewing the same
buffer that has the dialog open closes it. -/
def onBufferReloadKey (s : System) (i : Nat) (k : Key) : System :=
  match s.clients[i]? with
  | none => s
  | some c =>
    match s.buffers[c.bufferId]? with
    | none => s
    | some buf =>
      if k = keyY ∨ k = ctrlM then
        let r := reloadBuffer c buf
        let clients := (s.clients.set i r.1).map (fun cl =>
          if cl.bufferId = c.bufferId ∧ cl.dialogOpened
          then closeBufferReloadDialog cl else cl)
        { s with clients := clients, buffers := s.buffers.set c.bufferId r.2 }
      else if k = keyN ∨ k = escapeKey then
        let buf2 := { buf with fsTimestamp := s.fs buf.name }
        let c2 := printStatus c
          [DisplayAtom.mk ("'" ++ buf.displayName ++ "' kept") "Information"]
        let clients := (s.clients.set i c2).map (fun cl =>
          if cl.bufferId = c.bufferId ∧ cl.dialogOpened
          then closeBufferReloadDialog cl else cl)
        { s with clients := clients, buffers := s.buffers.set c.bufferId buf2 }
      else
        let c2 := printStatus c
          [DisplayAtom.mk ("'" ++ keyToStr k ++ "' is not a valid choice") "Error"]
        let c2 := emit c2 Effect.onNextKey
        { s with clients := s.clients.set i c2 }

/-- Client::change_buffer (src/client.cc lines 141-163): close an open
reload dialog first, remember the previous buffer, hand the window back
to the client manager and take a window on the new buffer (external
window management recorded as effects), then run the WinDisplay hook. -/
def changeBuffer (c : Client) (newBufferId : Nat) (newBufferName : String) :
    Client :=
  let c := if c.dialogOpened then closeBufferReloadDialog c else c
  let c := { c with lastBuffer := some c.bufferId }
  let c := { c with bufferId := newBufferId }
  let c := emit c Effect.setUiOptions
  let c := emit c Effect.setDimensions
  emit c (Effect.runHook "WinDisplay" newBufferName)

/-- The session state Client::generate_mode_line reads besides the
buffer: the result of parsing and expanding the modelinefmt option in the
current context (an exception is an error value), the input handler's
recording register if recording, the user-hooks-disabled flag, the input
handler's mode-line atoms, and the session name and server session id. -/
structure ModeLineEnv where
  modelinefmtParsed : Except String DisplayLine := Except.ok []
  recording : Option String := none
  hooksDisabled : Bool := false
  modeIndicator : DisplayLine := []
  sessionName : String := ""
  sessionId : String := ""

/-- Client::generate_mode_line (src/client.cc lines 106-139): the built
display line, plus the external calls made while building it (a debug
write when modelinefmt fails to parse or expand). -/
def generateModeLine (env : ModeLineEnv) (buf : Buffer) :
    DisplayLine × List Effect :=
  let base :=
    match env.modelinefmtParsed with
    | Except.ok dl => (dl, ([] : List Effect))
    | Except.error e =>
      ([DisplayAtom.mk "modelinefmt error, see *debug* buffer" "Error"],
       [Effect.writeDebug ("Error while parsing modelinefmt: " ++ e)])
  let modeline := base.1
  let modeline := if buf.isModified
    then modeline ++ [DisplayAtom.mk "[+]" "Information"] else modeline
  let modeline :=
    match env.recording with
    | some reg => modeline ++ [DisplayAtom.mk ("[recording (" ++ reg ++ ")]") "Information"]
    | none => modeline
  let modeline := if buf.isNew
    then modeline ++ [DisplayAtom.mk "[new file]" "Information"] else modeline
  let modeline := if env.hooksDisabled
    then modeline ++ [DisplayAtom.mk "[no-hooks]" "Information"] else modeline
  let modeline := if buf.isFifo
    then modeline ++ [DisplayAtom.mk "[fifo]" "Information"] else modeline
  let modeline := modeline ++ [DisplayAtom.mk " " ""]
  let modeline := modeline ++ env.modeIndicator
  let modeline := modeline ++
    [DisplayAtom.mk (" - " ++ env.sessionName ++ "@[" ++ env.sessionId ++ "]") ""]
  (modeline, base.2)

/-- The window observations Client::redraw_ifn makes: the needs_redraw
answer, the window position before and after the draw of the updated
display buffer, and the post-draw display_position mapping. -/
structure Window where
  needsRedraw : Bool
  posBefore : Coord := (0, 0)
  posAfterDraw : Coord := (0, 0)
  displayPos : Coord → Coord := id

/-- Client::redraw_ifn (src/client.cc lines 172-210): draw the window if
dirty and re-anchor non-empty inline overlays if the draw moved the
window; rebuild the mode line; redraw the status strip if the window was
dirty or the status or mode line changed, adopting the drawn lines as the
new baseline; always refresh. -/
def redrawIfn (c : Client) (w : Window) (env : ModeLineEnv) (buf : Buffer) :
    Client :=
  let needsRedraw := w.needsRedraw
  let c :=
    if needsRedraw then
      let c := emit c Effect.draw
      if w.posBefore ≠ w.posAfterDraw then
        let c :=
          if ¬ c.menu.items.isEmpty ∧ c.menu.style = MenuStyle.Inline then
            let c := emit c
              (Effect.menuShow c.menu.items (w.displayPos c.menu.anchor) c.menu.style)
            emit c (Effect.menuSelect c.menu.selected)
          else c
        if ¬ c.info.content.isEmpty ∧ isInlineStyle c.info.style then
          emit c (Effect.infoShow c.info.title c.info.content
            (w.displayPos c.info.anchor) c.info.style)
        else c
      else c
    else c
  let ml := generateModeLine env buf
  let c := { c with trace := c.trace ++ ml.2 }
  let c :=
    if needsRedraw ∨ c.statusLine ≠ c.pendingStatusLine ∨ ml.1 ≠ c.modeLine then
      let c := { c with modeLine := ml.1, statusLine := c.pendingStatusLine }
      emit c (Effect.drawStatus c.statusLine c.modeLine "StatusLine")
    else c
  emit c Effect.refresh

@[simp] theorem emit_pendingKeys (c : Client) (e : Effect) :
    (emit c e).pendingKeys = c.pendingKeys := rfl

@[simp] theorem emit_name (c : Client) (e : Effect) :
    (emit c e).name = c.name := rfl

@[simp] theorem emit_trace (c : Client) (e : Effect) :
    (emit c e).trace = c.trace ++ [e] := rfl

theorem getNextKey_pending (mode : EventMode) (c : Client) (ui : List Key)
    (k : Key) (rest : List Key) (hp : c.pendingKeys = k :: rest) :
    getNextKey mode c ui = (some k, { c with pendingKeys := rest }, ui) := by
  unfold getNextKey
  rw [hp]

theorem getNextKey_poll (mode : EventMode) (c : Client) (k : Key)
    (rest : List Key) (hp : c.pendingKeys = []) (hm : mode ≠ EventMode.Pending) :
    getNextKey mode c (k :: rest) = (some k, c, rest) := by
  unfold getNextKey
  rw [hp]
  simp [hm]

theorem getNextKey_exhausted (mode : EventMode) (c : Client) (ui : List Key)
    (hp : c.pendingKeys = []) (hstop : mode = EventMode.Pending ∨ ui = []) :
    getNextKey mode c ui = (none, c, ui) := by
  unfold getNextKey
  rw [hp]
  rcases hstop with hm | hu
  · simp [hm]
  · subst hu
    by_cases hm2 : mode = EventMode.Pending <;> simp [hm2]

theorem drainKeys_step_some (mode : EventMode) (c : Client) (ui : List Key)
    (k : Key) (c2 : Client) (ui2 : List Key)
    (hg : getNextKey mode c ui = (some k, c2, ui2)) :
    drainKeys mode c ui = drainKeys mode (dispatchKey c2 k) ui2 := by
  rw [drainKeys]
  split
  · rename_i k2 c3 ui3 heq
    rw [hg] at heq
    injection heq with h1 h2
    injection h2 with h2a h2b
    injection h1 with h1
    subst h1; subst h2a; subst h2b
    rfl
  · rename_i c3 ui3 heq
    rw [hg] at heq
    injection heq with h1 h2
    exact Option.noConfusion h1

theorem drainKeys_step_none (mode : EventMode) (c : Client) (ui : List Key)
    (c2 : Client) (ui2 : List Key)
    (hg : getNextKey mode c ui = (none, c2, ui2)) :
    drainKeys mode c ui = (c2, ui2) := by
  rw [drainKeys]
  split
  · rename_i k2 c3 ui3 heq
    rw [hg] at heq
    injection heq with h1 h2
    exact Option.noConfusion h1
  · rename_i c3 ui3 heq
    rw [hg] at heq
    injection heq with h1 h2
    injection h2 with h2a h2b
    subst h2a; subst h2b
    rfl

theorem drainKeys_normal (ks : List Key) :
    ∀ (c : Client) (ui : List Key), c.pendingKeys = ks →
      drainKeys EventMode.Normal c ui =
        ({ c with pendingKeys := [],
                  trace := c.trace ++ (ks ++ ui).map (keyEffect c.name) }, []) := by
  induction ks with
  | nil =>
    intro c ui hp
    induction ui generalizing c with
    | nil =>
      rw [drainKeys_step_none _ _ _ _ _ (getNextKey_exhausted _ _ _ hp (Or.inr rfl))]
      rw [Prod.mk.injEq]
      refine ⟨?_, rfl⟩
      cases c
      simp_all
    | cons k urest ih =>
      rw [drainKeys_step_some _ _ _ _ _ _ (getNextKey_poll _ _ _ _ hp (by simp))]
      rw [ih (dispatchKey c k) (by simp [hp])]
      simp [dispatchKey_eq_emit, emit]
  | cons k rest ih =>
    intro c ui hp
    rw [drainKeys_step_some _ _ _ _ _ _ (getNextKey_pending _ _ _ _ _ hp)]
    rw [ih _ _ (by simp)]
    simp [dispatchKey_eq_emit, emit]

/-- C6: in Urgent event mode handle_available_input fetches exactly one
key directly from the input source without consulting the pending queue;
an interrupt key broadcasts the interrupt signal and leaves the pending
queue unchanged, any other key is appended to the back of the pending
queue; in neither case is the key forwarded to the editing engine. -/
theorem urgent_mode_one_key (c : Client) (k : Key) (rest : List Key) :
    (k = ctrlC →
      handleAvailableInput EventMode.Urgent c (k :: rest) =
        (emit c Effect.killpg, rest) ∧
      (emit c Effect.killpg).pendingKeys = c.pendingKeys) ∧
    (k ≠ ctrlC →
      handleAvailableInput EventMode.Urgent c (k :: rest) =
        ({ c with pendingKeys := c.pendingKeys ++ [k] }, rest)) ∧
    (∀ k2 : Key, Effect.handleKey k2 ∉
      ((handleAvailableInput EventMode.Urgent c (k :: rest)).1.trace.drop
        c.trace.length)) := by
  refine ⟨fun hk => ?_, fun hk => ?_, fun k2 => ?_⟩
  · subst hk
    simp [handleAvailableInput]
  · simp [handleAvailableInput, hk]
  · by_cases hk : k = ctrlC <;>
      simp [handleAvailableInput, hk, emit, List.drop_left, List.drop_length]

theorem urgent_mode_one_key_witness :
    handleAvailableInput EventMode.Urgent {} [ctrlC] = (emit {} Effect.killpg, []) :=
  ((urgent_mode_one_key {} ctrlC []).1 rfl).1

/-- C7: get_next_key pops the front of the pending queue whenever it is
non-empty regardless of mode, polls the input source only when the queue
is empty and the mode is not Pending, and otherwise yields no key; a
Normal-mode dispatch drains every pending key and then every polled key,
issuing their per-key external calls (the editing-engine handle_key call
for ordinary keys) in queue order followed by input order. -/
theorem dispatch_fifo (mode : EventMode) (c : Client) (ui : List Key) :
    (∀ k rest, c.pendingKeys = k :: rest →
      getNextKey mode c ui = (some k, { c with pendingKeys := rest }, ui)) ∧
    (∀ k rest, c.pendingKeys = [] → mode ≠ EventMode.Pending → ui = k :: rest →
      getNextKey mode c ui = (some k, c, rest)) ∧
    (c.pendingKeys = [] → (mode = EventMode.Pending ∨ ui = []) →
      getNextKey mode c ui = (none, c, ui)) ∧
    (mode = EventMode.Normal →
      drainKeys mode c ui =
        ({ c with pendingKeys := [],
                  trace := c.trace ++ (c.pendingKeys ++ ui).map (keyEffect c.name) },
         [])) := by
  refine ⟨fun k rest hp => getNextKey_pending mode c ui k rest hp,
          fun k rest hp hm hu => ?_,
          fun hp hstop => getNextKey_exhausted mode c ui hp hstop,
          fun hm => ?_⟩
  · subst hu
    exact getNextKey_poll mode c k rest hp hm
  · subst hm
    exact drainKeys_normal c.pendingKeys c ui rfl

theorem dispatch_fifo_witness :
    drainKeys EventMode.Normal
        { name := "s", pendingKeys := [keyY, keyN] } [escapeKey] =
      ({ name := "s", pendingKeys := [],
         trace := [Effect.handleKey keyY, Effect.handleKey keyN,
                   Effect.handleKey escapeKey] }, []) := by
  have h := (dispatch_fifo EventMode.Normal
    { name := "s", pendingKeys := [keyY, keyN] } [escapeKey]).2.2.2 rfl
  rw [h]
  simp [keyEffect, keyY, keyN, escapeKey, ctrlC, focusIn, focusOut]

@[simp] theorem printStatus_pendingStatusLine (c : Client) (l : DisplayLine) :
    (printStatus c l).pendingStatusLine = l := rfl

@[simp] theorem printStatus_dialogOpened (c : Client) (l : DisplayLine) :
    (printStatus c l).dialogOpened = c.dialogOpened := rfl

@[simp] theorem printStatus_bufferId (c : Client) (l : DisplayLine) :
    (printStatus c l).bufferId = c.bufferId := rfl

@[simp] theorem printStatus_trace (c : Client) (l : DisplayLine) :
    (printStatus c l).trace = c.trace := rfl

@[simp] theorem emit_dialogOpened (c : Client) (e : Effect) :
    (emit c e).dialogOpened = c.dialogOpened := rfl

@[simp] theorem emit_bufferId (c : Client) (e : Effect) :
    (emit c e).bufferId = c.bufferId := rfl

@[simp] theorem emit_pendingStatusLine (c : Client) (e : Effect) :
    (emit c e).pendingStatusLine = c.pendingStatusLine := rfl

@[simp] theorem closeBufferReloadDialog_dialogOpened (c : Client) :
    (closeBufferReloadDialog c).dialogOpened = false := rfl

@[simp] theorem closeBufferReloadDialog_trace (c : Client) :
    (closeBufferReloadDialog c).trace =
      c.trace ++ [Effect.infoHide, Effect.resetNormalMode] := by
  simp [closeBufferReloadDialog, emit]

@[simp] theorem closeBufferReloadDialog_pendingStatusLine (c : Client) :
    (closeBufferReloadDialog c).pendingStatusLine = c.pendingStatusLine := rfl

@[simp] theorem closeBufferReloadDialog_bufferId (c : Client) :
    (closeBufferReloadDialog c).bufferId = c.bufferId := rfl

@[simp] theorem reloadBuffer_fst_dialogOpened (c : Client) (buf : Buffer) :
    (reloadBuffer c buf).1.dialogOpened = c.dialogOpened := rfl

@[simp] theorem reloadBuffer_fst_bufferId (c : Client) (buf : Buffer) :
    (reloadBuffer c buf).1.bufferId = c.bufferId := rfl

@[simp] theorem reloadBuffer_fst_trace (c : Client) (buf : Buffer) :
    (reloadBuffer c buf).1.trace = c.trace ++ [Effect.reloadFileBuffer] := by
  simp [reloadBuffer, emit, printStatus]

@[simp] theorem reloadBuffer_snd (c : Client) (buf : Buffer) :
    (reloadBuffer c buf).2 = buf := rfl

/-- The no-op branches of check_if_buffer_needs_reloading when the
timestamp is unavailable or matches the recorded one. -/
theorem check_noop_of_ts (c : Client) (buf : Buffer) (reload : Autoreload)
    (fs : String → Option Nat) (dp : Coord → Coord)
    (h : fs buf.name = none ∨ fs buf.name = buf.fsTimestamp) :
    checkIfBufferNeedsReloading c buf reload fs dp = (c, buf) := by
  unfold checkIfBufferNeedsReloading
  by_cases h1 : c.dialogOpened
  · simp [h1]
  · by_cases h2 : ¬ buf.isFile ∨ reload = Autoreload.No <;> simp [h1, h2, h]

/-- C10: change_buffer closes an open reload dialog first (flag cleared,
info overlay hidden, normal key routing restored) before the window swap,
so it always returns with the dialog flag false; the previous buffer is
remembered and the new buffer adopted. -/
theorem change_buffer_dialog_invariant (c : Client) (nb : Nat) (nm : String) :
    (changeBuffer c nb nm).dialogOpened = false ∧
    (changeBuffer c nb nm).bufferId = nb ∧
    (changeBuffer c nb nm).lastBuffer = some c.bufferId ∧
    (c.dialogOpened = true →
      (changeBuffer c nb nm).trace =
        c.trace ++ [Effect.infoHide, Effect.resetNormalMode,
          Effect.setUiOptions, Effect.setDimensions,
          Effect.runHook "WinDisplay" nm]) ∧
    (c.dialogOpened = false →
      (changeBuffer c nb nm).trace =
        c.trace ++ [Effect.setUiOptions, Effect.setDimensions,
          Effect.runHook "WinDisplay" nm]) := by
  by_cases h : c.dialogOpened = true <;>
    simp [changeBuffer, closeBufferReloadDialog, emit, h]

theorem change_buffer_dialog_invariant_witness :
    (changeBuffer { dialogOpened := true, bufferId := 3 } 7 "b").dialogOpened = false ∧
    (changeBuffer { dialogOpened := true, bufferId := 3 } 7 "b").trace =
      [Effect.infoHide, Effect.resetNormalMode, Effect.setUiOptions,
       Effect.setDimensions, Effect.runHook "WinDisplay" "b"] :=
  ⟨(change_buffer_dialog_invariant { dialogOpened := true, bufferId := 3 } 7 "b").1,
   (change_buffer_dialog_invariant { dialogOpened := true, bufferId := 3 } 7 "b").2.2.2.1 rfl⟩

/-- C2: check_if_buffer_needs_reloading is a no-op when the dialog is
already open, when the buffer is not file-backed, when the autoreload
policy is never, or when the filesystem timestamp is unavailable or
equals the recorded one; with policy always it invokes the reload
operation directly without opening a dialog, and with policy ask it shows
a modal prompt naming the buffer, sets the dialog flag and installs the
one-shot key handler. -/
theorem check_reload_spec (c : Client) (buf : Buffer) (reload : Autoreload)
    (fs : String → Option Nat) (dp : Coord → Coord) :
    (c.dialogOpened = true →
      checkIfBufferNeedsReloading c buf reload fs dp = (c, buf)) ∧
    (buf.isFile = false ∨ reload = Autoreload.No →
      checkIfBufferNeedsReloading c buf reload fs dp = (c, buf)) ∧
    (fs buf.name = none ∨ fs buf.name = buf.fsTimestamp →
      checkIfBufferNeedsReloading c buf reload fs dp = (c, buf)) ∧
    (c.dialogOpened = false → buf.isFile = true → reload = Autoreload.Yes →
      ¬ (fs buf.name = none ∨ fs buf.name = buf.fsTimestamp) →
      checkIfBufferNeedsReloading c buf reload fs dp = reloadBuffer c buf ∧
      (reloadBuffer c buf).1.trace = c.trace ++ [Effect.reloadFileBuffer] ∧
      (reloadBuffer c buf).1.dialogOpened = false) ∧
    (c.dialogOpened = false → buf.isFile = true → reload = Autoreload.Ask →
      ¬ (fs buf.name = none ∨ fs buf.name = buf.fsTimestamp) →
      (checkIfBufferNeedsReloading c buf reload fs dp).2 = buf ∧
      (checkIfBufferNeedsReloading c buf reload fs dp).1.dialogOpened = true ∧
      (checkIfBufferNeedsReloading c buf reload fs dp).1.trace =
        c.trace ++
          [Effect.infoShow ("reload '" ++ buf.displayName ++ "' ?")
            ("'" ++ buf.displayName ++ "' was modified externally\n" ++
             "press <ret> or y to reload, <esc> or n to keep")
            ((0 : Int), (0 : Int)) InfoStyle.Prompt,
           Effect.onNextKey]) := by
  refine ⟨fun h1 => ?_, fun h2 => ?_, fun h3 => check_noop_of_ts c buf reload fs dp h3,
          fun h1 h2 h3 h4 => ?_, fun h1 h2 h3 h4 => ?_⟩
  · simp [checkIfBufferNeedsReloading, h1]
  · by_cases h1 : c.dialogOpened
    · simp [checkIfBufferNeedsReloading, h1]
    · rcases h2 with h2 | h2 <;> simp [checkIfBufferNeedsReloading, h1, h2]
  · subst h3
    refine ⟨?_, by simp, by simp [h1]⟩
    simp [checkIfBufferNeedsReloading, h1, h2, h4]
  · subst h3
    have he : checkIfBufferNeedsReloading c buf Autoreload.Ask fs dp =
        (emit { (infoShow c dp ("reload '" ++ buf.displayName ++ "' ?")
          ("'" ++ buf.displayName ++ "' was modified externally\n" ++
           "press <ret> or y to reload, <esc> or n to keep")
          ((0 : Int), (0 : Int)) InfoStyle.Prompt) with dialogOpened := true }
          Effect.onNextKey, buf) := by
      simp [checkIfBufferNeedsReloading, h1, h2, h4]
    rw [he]
    refine ⟨rfl, rfl, ?_⟩
    simp [infoShow, emit, isInlineStyle]

theorem check_reload_spec_witness :
    (checkIfBufferNeedsReloading
        { dialogOpened := false }
        { name := "f", displayName := "f", isFile := true, fsTimestamp := some 1 }
        Autoreload.Ask (fun _ => some 2) id).1.dialogOpened = true :=
  ((check_reload_spec { dialogOpened := false }
      { name := "f", displayName := "f", isFile := true, fsTimestamp := some 1 }
      Autoreload.Ask (fun _ => some 2) id).2.2.2.2 rfl rfl rfl
    (by simp)).2.1

/-- The close-on-every-client pass run after confirm or decline. -/
def closeOnBuffer (clients : List Client) (bid : Nat) : List Client :=
  clients.map (fun cl =>
    if cl.bufferId = bid ∧ cl.dialogOpened
    then closeBufferReloadDialog cl else cl)

theorem onBufferReloadKey_confirm (s : System) (i : Nat) (c : Client)
    (buf : Buffer) (k : Key)
    (hc : s.clients[i]? = some c) (hb : s.buffers[c.bufferId]? = some buf)
    (hk : k = keyY ∨ k = ctrlM) :
    onBufferReloadKey s i k =
      { s with
        clients := closeOnBuffer (s.clients.set i (reloadBuffer c buf).1) c.bufferId,
        buffers := s.buffers.set c.bufferId (reloadBuffer c buf).2 } := by
  unfold onBufferReloadKey closeOnBuffer
  simp only [hc, hb]
  rw [if_pos hk]

theorem onBufferReloadKey_decline (s : System) (i : Nat) (c : Client)
    (buf : Buffer) (k : Key)
    (hc : s.clients[i]? = some c) (hb : s.buffers[c.bufferId]? = some buf)
    (hky : ¬ (k = keyY ∨ k = ctrlM)) (hkn : k = keyN ∨ k = escapeKey) :
    onBufferReloadKey s i k =
      { s with
        clients := closeOnBuffer (s.clients.set i (printStatus c
          [DisplayAtom.mk ("'" ++ buf.displayName ++ "' kept") "Information"]))
          c.bufferId,
        buffers := s.buffers.set c.bufferId
          { buf with fsTimestamp := s.fs buf.name } } := by
  unfold onBufferReloadKey closeOnBuffer
  simp only [hc, hb]
  rw [if_neg hky, if_pos hkn]

theorem onBufferReloadKey_invalid (s : System) (i : Nat) (c : Client)
    (buf : Buffer) (k : Key)
    (hc : s.clients[i]? = some c) (hb : s.buffers[c.bufferId]? = some buf)
    (hky : ¬ (k = keyY ∨ k = ctrlM)) (hkn : ¬ (k = keyN ∨ k = escapeKey)) :
    onBufferReloadKey s i k =
      { s with
        clients := s.clients.set i
                     (emit (printStatus c
                       [DisplayAtom.mk ("'" ++ keyToStr k ++ "' is not a valid choice")
                         "Error"])
                       Effect.onNextKey) } := by
  unfold onBufferReloadKey
  simp only [hc, hb]
  rw [if_neg hky, if_neg hkn]

/-- C3: a confirm or decline key resolves the reload dialog on every
client attached to the same buffer that has the dialog open: the flag
becomes false and the backend info-hide and normal-mode-reset calls are
issued on each such client, not only the one where the key was pressed. -/
theorem reload_dialog_cross_client (s : System) (i : Nat) (c : Client)
    (buf : Buffer) (k : Key)
    (hc : s.clients[i]? = some c) (hb : s.buffers[c.bufferId]? = some buf)
    (hk : (k = keyY ∨ k = ctrlM) ∨ (k = keyN ∨ k = escapeKey)) :
    ∀ (j : Nat) (cj : Client), s.clients[j]? = some cj →
      cj.bufferId = c.bufferId → cj.dialogOpened = true →
      ∃ cj2 : Client, ((onBufferReloadKey s i k).clients)[j]? = some cj2 ∧
        cj2.dialogOpened = false ∧
        List.IsSuffix [Effect.infoHide, Effect.resetNormalMode] cj2.trace := by
  intro j cj hcj hbid hdlg
  have hclients : (onBufferReloadKey s i k).clients =
      closeOnBuffer (s.clients.set i
        (if k = keyY ∨ k = ctrlM then (reloadBuffer c buf).1
         else printStatus c
           [DisplayAtom.mk ("'" ++ buf.displayName ++ "' kept") "Information"]))
        c.bufferId := by
    rcases hk with hky | hkn
    · rw [onBufferReloadKey_confirm s i c buf k hc hb hky, if_pos hky]
    · by_cases hky : k = keyY ∨ k = ctrlM
      · rw [onBufferReloadKey_confirm s i c buf k hc hb hky, if_pos hky]
      · rw [onBufferReloadKey_decline s i c buf k hc hb hky hkn, if_neg hky]
  set x := (if k = keyY ∨ k = ctrlM then (reloadBuffer c buf).1
    else printStatus c
      [DisplayAtom.mk ("'" ++ buf.displayName ++ "' kept") "Information"]) with hx
  have hxbid : x.bufferId = c.bufferId := by
    rw [hx]; split <;> simp
  have hxdlg : x.dialogOpened = c.dialogOpened := by
    rw [hx]; split <;> simp
  rw [hclients]
  unfold closeOnBuffer
  rw [List.getElem?_map]
  by_cases hij : j = i
  · subst hij
    have hcc : cj = c := by
      rw [hcj] at hc
      exact (Option.some.injEq _ _).mp hc
    subst hcc
    have hlen : j < s.clients.length := (List.getElem?_eq_some.mp hcj).1
    rw [List.getElem?_set_eq_of_lt x hlen]
    refine ⟨closeBufferReloadDialog x, ?_, rfl, ?_⟩
    · rw [Option.map_some']
      rw [if_pos ⟨hxbid, by rw [hxdlg, ← hdlg]⟩]
    · rw [closeBufferReloadDialog_trace]
      exact ⟨x.trace, by simp⟩
  · rw [List.getElem?_set_ne (fun h => hij h.symm), hcj]
    refine ⟨closeBufferReloadDialog cj, ?_, rfl, ?_⟩
    · rw [Option.map_some']
      rw [if_pos ⟨hbid, by rw [hdlg]⟩]
    · rw [closeBufferReloadDialog_trace]
      exact ⟨cj.trace, by simp⟩

theorem reload_dialog_cross_client_witness :
    ∃ cj2, ((onBufferReloadKey
        (System.mk
          [{ name := "a", dialogOpened := true, bufferId := 0 },
           { name := "b", dialogOpened := true, bufferId := 0 }]
          [{ name := "f", displayName := "f" }]
          (fun _ => some 3))
        0 keyY).clients)[1]? = some cj2 ∧
      cj2.dialogOpened = false ∧
      List.IsSuffix [Effect.infoHide, Effect.resetNormalMode] cj2.trace :=
  reload_dialog_cross_client
    (System.mk
      [{ name := "a", dialogOpened := true, bufferId := 0 },
       { name := "b", dialogOpened := true, bufferId := 0 }]
      [{ name := "f", displayName := "f" }]
      (fun _ => some 3))
    0 { name := "a", dialogOpened := true, bufferId := 0 }
    { name := "f", displayName := "f" } keyY rfl rfl (Or.inl (Or.inl rfl))
    1 { name := "b", dialogOpened := true, bufferId := 0 } rfl rfl rfl

/-- C4: an invalid dialog key emits the error-styled "is not a valid
choice" status on the initiating client and re-installs the one-shot
handler, with no other state change: the buffers (and so the recorded
timestamp) are untouched, no reload call is issued, and the dialog is not
closed on any client. -/
theorem reload_dialog_invalid_key (s : System) (i : Nat) (c : Client)
    (buf : Buffer) (k : Key)
    (hc : s.clients[i]? = some c) (hb : s.buffers[c.bufferId]? = some buf)
    (hky : ¬ (k = keyY ∨ k = ctrlM)) (hkn : ¬ (k = keyN ∨ k = escapeKey)) :
    (onBufferReloadKey s i k).buffers = s.buffers ∧
    ((onBufferReloadKey s i k).clients)[i]? = some
      (emit (printStatus c
        [DisplayAtom.mk ("'" ++ keyToStr k ++ "' is not a valid choice") "Error"])
        Effect.onNextKey) ∧
    (∀ c2 : Client, ((onBufferReloadKey s i k).clients)[i]? = some c2 →
      c2.dialogOpened = c.dialogOpened ∧
      c2.pendingStatusLine =
        [DisplayAtom.mk ("'" ++ keyToStr k ++ "' is not a valid choice") "Error"] ∧
      c2.trace = c.trace ++ [Effect.onNextKey]) ∧
    (∀ j : Nat, j ≠ i → ((onBufferReloadKey s i k).clients)[j]? = s.clients[j]?) := by
  rw [onBufferReloadKey_invalid s i c buf k hc hb hky hkn]
  have hlen : i < s.clients.length := (List.getElem?_eq_some.mp hc).1
  refine ⟨rfl, ?_, ?_, ?_⟩
  · exact List.getElem?_set_eq_of_lt _ hlen
  · intro c2 h2
    rw [List.getElem?_set_eq_of_lt _ hlen] at h2
    injection h2 with h2
    subst h2
    exact ⟨rfl, rfl, by simp [emit, printStatus]⟩
  · intro j hj
    exact List.getElem?_set_ne (Ne.symm hj)

theorem reload_dialog_invalid_key_witness :
    ((onBufferReloadKey
        (System.mk [{ name := "a", dialogOpened := true, bufferId := 0 }]
          [{ name := "f", displayName := "f" }] (fun _ => some 3))
        0 (Key.mk KeyMod.plain 120)).clients)[0]? = some
      (emit (printStatus { name := "a", dialogOpened := true, bufferId := 0 }
        [DisplayAtom.mk ("'" ++ keyToStr (Key.mk KeyMod.plain 120) ++
          "' is not a valid choice") "Error"])
        Effect.onNextKey) :=
  (reload_dialog_invalid_key
    (System.mk [{ name := "a", dialogOpened := true, bufferId := 0 }]
      [{ name := "f", displayName := "f" }] (fun _ => some 3))
    0 { name := "a", dialogOpened := true, bufferId := 0 }
    { name := "f", displayName := "f" } (Key.mk KeyMod.plain 120)
    rfl rfl (by decide) (by decide)).2.1

/-- C5: a decline key re-records the buffer's filesystem timestamp as the
currently observed one and emits the "kept" status; an immediately
subsequent check_if_buffer_needs_reloading with the filesystem unchanged
is a no-op and does not reopen the dialog. -/
theorem decline_suppresses_reprompt (s : System) (i : Nat) (c : Client)
    (buf : Buffer) (k : Key) (reload : Autoreload) (dp : Coord → Coord)
    (hc : s.clients[i]? = some c) (hb : s.buffers[c.bufferId]? = some buf)
    (hky : ¬ (k = keyY ∨ k = ctrlM)) (hkn : k = keyN ∨ k = escapeKey) :
    ((onBufferReloadKey s i k).buffers)[c.bufferId]? =
      some { buf with fsTimestamp := s.fs buf.name } ∧
    (∀ c2 : Client, ((onBufferReloadKey s i k).clients)[i]? = some c2 →
      c2.pendingStatusLine =
        [DisplayAtom.mk ("'" ++ buf.displayName ++ "' kept") "Information"] ∧
      checkIfBufferNeedsReloading c2 { buf with fsTimestamp := s.fs buf.name }
          reload s.fs dp =
        (c2, { buf with fsTimestamp := s.fs buf.name }) ∧
      (checkIfBufferNeedsReloading c2 { buf with fsTimestamp := s.fs buf.name }
          reload s.fs dp).1.dialogOpened = c2.dialogOpened) := by
  rw [onBufferReloadKey_decline s i c buf k hc hb hky hkn]
  have hblen : c.bufferId < s.buffers.length := (List.getElem?_eq_some.mp hb).1
  have hclen : i < s.clients.length := (List.getElem?_eq_some.mp hc).1
  refine ⟨List.getElem?_set_eq_of_lt _ hblen, ?_⟩
  intro c2 h2
  have hnoop := check_noop_of_ts c2 { buf with fsTimestamp := s.fs buf.name }
    reload s.fs dp (Or.inr rfl)
  unfold closeOnBuffer at h2
  rw [List.getElem?_map, List.getElem?_set_eq_of_lt _ hclen, Option.map_some'] at h2
  injection h2 with h2
  subst h2
  refine ⟨?_, hnoop, by rw [hnoop]⟩
  split <;> simp

theorem decline_suppresses_reprompt_witness :
    ((onBufferReloadKey
        (System.mk [{ name := "a", dialogOpened := true, bufferId := 0 }]
          [{ name := "f", displayName := "f", fsTimestamp := some 1 }]
          (fun _ => some 3))
        0 keyN).buffers)[0]? =
      some { name := "f", displayName := "f", fsTimestamp := some 3 } :=
  (decline_suppresses_reprompt
    (System.mk [{ name := "a", dialogOpened := true, bufferId := 0 }]
      [{ name := "f", displayName := "f", fsTimestamp := some 1 }]
      (fun _ => some 3))
    0 { name := "a", dialogOpened := true, bufferId := 0 }
    { name := "f", displayName := "f", fsTimestamp := some 1 }
    keyN Autoreload.Ask id rfl rfl (by decide) (Or.inl rfl)).1

/-- C9: generate_mode_line produces, in fixed order, the parsed
modelinefmt atoms (or, on a parse/expand failure, a single error-styled
placeholder after a debug-log write, so the modeline is never blank),
then the presence-conditional indicators modified, recording, new-file,
no-hooks and fifo, then a single space atom, then the editing engine's
mode indicator atoms in order, then the trailing session atom. -/
theorem mode_line_structure (env : ModeLineEnv) (buf : Buffer) :
    ((generateModeLine env buf).1 =
      (match env.modelinefmtParsed with
       | Except.ok dl => dl
       | Except.error _ =>
         [DisplayAtom.mk "modelinefmt error, see *debug* buffer" "Error"]) ++
      ((if buf.isModified then [DisplayAtom.mk "[+]" "Information"] else []) ++
       (match env.recording with
        | some reg =>
          [DisplayAtom.mk ("[recording (" ++ reg ++ ")]") "Information"]
        | none => []) ++
       (if buf.isNew then [DisplayAtom.mk "[new file]" "Information"] else []) ++
       (if env.hooksDisabled then [DisplayAtom.mk "[no-hooks]" "Information"] else []) ++
       (if buf.isFifo then [DisplayAtom.mk "[fifo]" "Information"] else [])) ++
      [DisplayAtom.mk " " ""] ++ env.modeIndicator ++
      [DisplayAtom.mk (" - " ++ env.sessionName ++ "@[" ++ env.sessionId ++ "]") ""]) ∧
    ((generateModeLine env buf).2 =
      match env.modelinefmtParsed with
      | Except.ok _ => []
      | Except.error e =>
        [Effect.writeDebug ("Error while parsing modelinefmt: " ++ e)]) ∧
    (generateModeLine env buf).1 ≠ [] := by
  refine ⟨?_, ?_, ?_⟩
  · unfold generateModeLine
    rcases hfmt : env.modelinefmtParsed with dl | e <;>
      rcases hrec : env.recording with _ | reg <;>
        simp only [hfmt, hrec] <;>
          split_ifs <;> simp [List.append_assoc]
  · unfold generateModeLine
    rcases hfmt : env.modelinefmtParsed with dl | e <;> simp [hfmt]
  · unfold generateModeLine
    rcases hfmt : env.modelinefmtParsed with dl | e <;> simp [hfmt]

/-- The ordered external calls of the dirty-window phase of redraw_ifn:
the draw of the updated display buffer, followed, when the draw moved the
window, by the re-anchored show calls of the non-empty inline overlays. -/
def overlayEffects (c : Client) (w : Window) : List Effect :=
  if w.needsRedraw then
    Effect.draw ::
      (if w.posBefore ≠ w.posAfterDraw then
        (if ¬ c.menu.items.isEmpty ∧ c.menu.style = MenuStyle.Inline then
          [Effect.menuShow c.menu.items (w.displayPos c.menu.anchor) c.menu.style,
           Effect.menuSelect c.menu.selected]
        else []) ++
        (if ¬ c.info.content.isEmpty ∧ isInlineStyle c.info.style then
          [Effect.infoShow c.info.title c.info.content
            (w.displayPos c.info.anchor) c.info.style]
        else [])
      else [])
  else []

theorem redrawIfn_eq (c : Client) (w : Window) (env : ModeLineEnv)
    (buf : Buffer) :
    redrawIfn c w env buf =
      if w.needsRedraw = true ∨ c.statusLine ≠ c.pendingStatusLine ∨
          (generateModeLine env buf).1 ≠ c.modeLine then
        { c with
          statusLine := c.pendingStatusLine,
          modeLine := (generateModeLine env buf).1,
          trace := c.trace ++ overlayEffects c w ++ (generateModeLine env buf).2 ++
            [Effect.drawStatus c.pendingStatusLine (generateModeLine env buf).1
              "StatusLine",
             Effect.refresh] }
      else
        { c with
          trace := c.trace ++ overlayEffects c w ++ (generateModeLine env buf).2 ++
            [Effect.refresh] } := by
  simp only [redrawIfn, overlayEffects, emit]
  split_ifs <;> simp_all [List.append_assoc]

theorem overlayEffects_no_drawStatus (c : Client) (w : Window)
    (st md : DisplayLine) (f : String) :
    Effect.drawStatus st md f ∉ overlayEffects c w := by
  unfold overlayEffects
  split_ifs <;> simp

theorem overlayEffects_no_refresh (c : Client) (w : Window) :
    Effect.refresh ∉ overlayEffects c w := by
  unfold overlayEffects
  split_ifs <;> simp

theorem generateModeLine_snd_cases (env : ModeLineEnv) (buf : Buffer) :
    (generateModeLine env buf).2 = [] ∨
    ∃ m, (generateModeLine env buf).2 = [Effect.writeDebug m] := by
  rcases hfmt : env.modelinefmtParsed with e | dl
  · right
    exact ⟨"Error while parsing modelinefmt: " ++ e, by simp [generateModeLine, hfmt]⟩
  · left
    simp [generateModeLine, hfmt]

theorem redrawIfn_new_trace (c : Client) (w : Window) (env : ModeLineEnv)
    (buf : Buffer) :
    (redrawIfn c w env buf).trace.drop c.trace.length =
      overlayEffects c w ++ (generateModeLine env buf).2 ++
      (if w.needsRedraw = true ∨ c.statusLine ≠ c.pendingStatusLine ∨
          (generateModeLine env buf).1 ≠ c.modeLine then
        [Effect.drawStatus c.pendingStatusLine (generateModeLine env buf).1
          "StatusLine",
         Effect.refresh]
      else [Effect.refresh]) := by
  rw [redrawIfn_eq]
  by_cases hcond : w.needsRedraw = true ∨ c.statusLine ≠ c.pendingStatusLine ∨
      (generateModeLine env buf).1 ≠ c.modeLine <;>
    simp [hcond, List.append_assoc, List.drop_left]

/-- C1: redraw_ifn issues the draw_status call if and only if the window
reported needing redraw or the pending status line differs from the
last-drawn status line or the freshly built mode line differs from the
last-drawn mode line; on such a redraw the pending status line and the
new mode line become the new last-drawn baseline; and the backend refresh
is issued exactly once per cycle in every case. -/
theorem redraw_status_and_refresh (c : Client) (w : Window) (env : ModeLineEnv)
    (buf : Buffer) :
    ((∃ st md f, Effect.drawStatus st md f ∈
        (redrawIfn c w env buf).trace.drop c.trace.length) ↔
      (w.needsRedraw = true ∨ c.statusLine ≠ c.pendingStatusLine ∨
        (generateModeLine env buf).1 ≠ c.modeLine)) ∧
    ((w.needsRedraw = true ∨ c.statusLine ≠ c.pendingStatusLine ∨
        (generateModeLine env buf).1 ≠ c.modeLine) →
      (redrawIfn c w env buf).statusLine = c.pendingStatusLine ∧
      (redrawIfn c w env buf).modeLine = (generateModeLine env buf).1) ∧
    ((redrawIfn c w env buf).trace.count Effect.refresh =
      c.trace.count Effect.refresh + 1) := by
  have hdrop := redrawIfn_new_trace c w env buf
  have hsnd := generateModeLine_snd_cases env buf
  by_cases hcond : w.needsRedraw = true ∨ c.statusLine ≠ c.pendingStatusLine ∨
      (generateModeLine env buf).1 ≠ c.modeLine
  · rw [if_pos hcond] at hdrop
    refine ⟨⟨fun _ => hcond, fun _ => ?_⟩, fun _ => ?_, ?_⟩
    · exact ⟨c.pendingStatusLine, (generateModeLine env buf).1, "StatusLine",
        by rw [hdrop]; simp⟩
    · rw [redrawIfn_eq, if_pos hcond]
      exact ⟨rfl, rfl⟩
    · rw [redrawIfn_eq, if_pos hcond]
      rcases hsnd with h | ⟨m, h⟩ <;>
        simp [h, List.count_append,
          List.count_eq_zero.mpr (overlayEffects_no_refresh c w), List.count_cons]
  · rw [if_neg hcond] at hdrop
    refine ⟨⟨fun hex => ?_, fun h => absurd h hcond⟩,
            fun h => absurd h hcond, ?_⟩
    · exfalso
      obtain ⟨st, md, f, hmem⟩ := hex
      rw [hdrop] at hmem
      rcases List.mem_append.mp hmem with hmem | hmem
      · rcases List.mem_append.mp hmem with hmem | hmem
        · exact overlayEffects_no_drawStatus c w st md f hmem
        · rcases hsnd with h | ⟨m, h⟩ <;> rw [h] at hmem <;> simp_all
      · simp_all
    · rw [redrawIfn_eq, if_neg hcond]
      rcases hsnd with h | ⟨m, h⟩ <;>
        simp [h, List.count_append,
          List.count_eq_zero.mpr (overlayEffects_no_refresh c w), List.count_cons]

theorem redraw_status_and_refresh_witness :
    (redrawIfn { statusLine := [], pendingStatusLine := [DisplayAtom.mk "m" ""] }
        { needsRedraw := false } { } { name := "f", displayName := "f" }).statusLine =
      [DisplayAtom.mk "m" ""] :=
  ((redraw_status_and_refresh
      { statusLine := [], pendingStatusLine := [DisplayAtom.mk "m" ""] }
      { needsRedraw := false } { } { name := "f", displayName := "f" }).2.1
    (Or.inr (Or.inl (by simp)))).1

set_option maxHeartbeats 1000000 in
theorem menuShow_overlay (c : Client) (w : Window) :
    (Effect.menuShow c.menu.items (w.displayPos c.menu.anchor) c.menu.style ∈
        overlayEffects c w ↔
      (w.needsRedraw = true ∧ w.posBefore ≠ w.posAfterDraw ∧
       c.menu.items.isEmpty = false ∧ c.menu.style = MenuStyle.Inline)) ∧
    (∀ items anchor style, Effect.menuShow items anchor style ∈ overlayEffects c w →
      items = c.menu.items ∧ anchor = w.displayPos c.menu.anchor ∧
        style = c.menu.style) := by
  unfold overlayEffects
  by_cases h1 : w.needsRedraw = true <;>
    by_cases h2 : w.posBefore = w.posAfterDraw <;>
      by_cases h3a : c.menu.items.isEmpty <;>
        by_cases h3b : c.menu.style = MenuStyle.Inline <;>
          by_cases h4a : c.info.content.isEmpty <;>
            by_cases h4b : isInlineStyle c.info.style <;>
              simp_all

set_option maxHeartbeats 1000000 in
theorem infoShow_overlay (c : Client) (w : Window) :
    (Effect.infoShow c.info.title c.info.content (w.displayPos c.info.anchor)
        c.info.style ∈ overlayEffects c w ↔
      (w.needsRedraw = true ∧ w.posBefore ≠ w.posAfterDraw ∧
       c.info.content.isEmpty = false ∧ isInlineStyle c.info.style = true)) ∧
    (∀ t ct anchor style, Effect.infoShow t ct anchor style ∈ overlayEffects c w →
      t = c.info.title ∧ ct = c.info.content ∧
        anchor = w.displayPos c.info.anchor ∧ style = c.info.style) := by
  unfold overlayEffects
  by_cases h1 : w.needsRedraw = true <;>
    by_cases h2 : w.posBefore = w.posAfterDraw <;>
      by_cases h3a : c.menu.items.isEmpty <;>
        by_cases h3b : c.menu.style = MenuStyle.Inline <;>
          by_cases h4a : c.info.content.isEmpty <;>
            by_cases h4b : isInlineStyle c.info.style <;>
              simp_all

/-- C8: during redraw_ifn the Menu and Info overlays are re-shown only
when the window was redrawn and its position changed as a result, and
only for a non-empty overlay of inline display style; the re-issued show
call uses the stored overlay content unchanged with only the display
anchor recomputed from the window's new position; in every other case no
overlay show call is issued. -/
theorem redraw_overlay_reanchor (c : Client) (w : Window) (env : ModeLineEnv)
    (buf : Buffer) :
    (Effect.menuShow c.menu.items (w.displayPos c.menu.anchor) c.menu.style ∈
        (redrawIfn c w env buf).trace.drop c.trace.length ↔
      (w.needsRedraw = true ∧ w.posBefore ≠ w.posAfterDraw ∧
       c.menu.items.isEmpty = false ∧ c.menu.style = MenuStyle.Inline)) ∧
    (∀ items anchor style, Effect.menuShow items anchor style ∈
        (redrawIfn c w env buf).trace.drop c.trace.length →
      items = c.menu.items ∧ anchor = w.displayPos c.menu.anchor ∧
        style = c.menu.style) ∧
    (Effect.infoShow c.info.title c.info.content (w.displayPos c.info.anchor)
        c.info.style ∈ (redrawIfn c w env buf).trace.drop c.trace.length ↔
      (w.needsRedraw = true ∧ w.posBefore ≠ w.posAfterDraw ∧
       c.info.content.isEmpty = false ∧ isInlineStyle c.info.style = true)) ∧
    (∀ t ct anchor style, Effect.infoShow t ct anchor style ∈
        (redrawIfn c w env buf).trace.drop c.trace.length →
      t = c.info.title ∧ ct = c.info.content ∧
        anchor = w.displayPos c.info.anchor ∧ style = c.info.style) := by
  have hm := menuShow_overlay c w
  have hi := infoShow_overlay c w
  refine ⟨?_, ?_, ?_, ?_⟩
  · rw [redrawIfn_new_trace c w env buf]
    rcases generateModeLine_snd_cases env buf with hs | ⟨m, hs⟩ <;>
      by_cases hcond : w.needsRedraw = true ∨ c.statusLine ≠ c.pendingStatusLine ∨
          (generateModeLine env buf).1 ≠ c.modeLine <;>
        simp [hs, hcond, hm.1]
  · intro items anchor style hmem
    rw [redrawIfn_new_trace c w env buf] at hmem
    rcases generateModeLine_snd_cases env buf with hs | ⟨m, hs⟩ <;>
      by_cases hcond : w.needsRedraw = true ∨ c.statusLine ≠ c.pendingStatusLine ∨
          (generateModeLine env buf).1 ≠ c.modeLine <;>
        rw [hs] at hmem <;> simp [hcond] at hmem <;>
          exact hm.2 items anchor style hmem
  · rw [redrawIfn_new_trace c w env buf]
    rcases generateModeLine_snd_cases env buf with hs | ⟨m, hs⟩ <;>
      by_cases hcond : w.needsRedraw = true ∨ c.statusLine ≠ c.pendingStatusLine ∨
          (generateModeLine env buf).1 ≠ c.modeLine <;>
        simp [hs, hcond, hi.1]
  · intro t ct anchor style hmem
    rw [redrawIfn_new_trace c w env buf] at hmem
    rcases generateModeLine_snd_cases env buf with hs | ⟨m, hs⟩ <;>
      by_cases hcond : w.needsRedraw = true ∨ c.statusLine ≠ c.pendingStatusLine ∨
          (generateModeLine env buf).1 ≠ c.modeLine <;>
        rw [hs] at hmem <;> simp [hcond] at hmem <;>
          exact hi.2 t ct anchor style hmem

theorem redraw_overlay_reanchor_witness :
    Effect.menuShow [[DisplayAtom.mk "i" ""]] ((1 : Int), (2 : Int)) MenuStyle.Inline ∈
      (redrawIfn
          { menu := Menu.mk [[DisplayAtom.mk "i" ""]] ((1 : Int), (2 : Int))
              MenuStyle.Inline 0 }
          { needsRedraw := true, posBefore := ((0 : Int), (0 : Int)),
            posAfterDraw := ((1 : Int), (0 : Int)), displayPos := id }
          { } { name := "f", displayName := "f" }).trace.drop 0 :=
  (redraw_overlay_reanchor
      { menu := Menu.mk [[DisplayAtom.mk "i" ""]] ((1 : Int), (2 : Int))
          MenuStyle.Inline 0 }
      { needsRedraw := true, posBefore := ((0 : Int), (0 : Int)),
        posAfterDraw := ((1 : Int), (0 : Int)), displayPos := id }
      { } { name := "f", displayName := "f" }).1.mpr
    ⟨rfl, by decide, rfl, rfl⟩

end KakClient
